import Mathlib

/- Shallow embedding of the RFM customer-segmentation pipeline of
   `src/dashboard/streamlit.py` (repository
   Proyek-Analisis-Data-E-Commerce).

   Modelling conventions:
   * timestamps are integer seconds; a missing timestamp (pandas `NaT`)
     is `none`;
   * money amounts are exact rationals (the spec reasons about the
     decimal values, not about float artefacts);
   * pandas row order produced by `groupby` / `sort_values` is kept only
     where a property depends on it; purely cosmetic orderings are noted
     at each definition;
   * a float division by zero, which pandas turns into `NaN`/`±inf`
     rather than raising, is modelled as `none`. -/

namespace EcomRfm

/-- A row of the cleaned orders table (the columns the RFM core reads). -/
structure OrderRow where
  order_id : Nat
  customer_id : Nat
  order_status : String
  order_purchase_timestamp : Option Int
deriving DecidableEq

/-- A row of the order-items table (the columns the RFM core reads). -/
structure ItemRow where
  order_id : Nat
  product_id : Nat
  shipping_limit_date : Int
  price : ℚ
  freight_value : ℚ
deriving DecidableEq

/-- `df_order_items["total_value"] = price + freight_value` (streamlit.py
line 73). -/
def total_value (i : ItemRow) : ℚ := i.price + i.freight_value

/-- One row of `df_order_items_` (streamlit.py lines 75-79). -/
structure ItemGroup where
  order_id : Nat
  product_id : Nat
  shipping_limit_date : Int
  product_counts : Nat
  total_price : ℚ
  total_value : ℚ
deriving DecidableEq

/-- The `groupby` key of `df_order_items_`. -/
def itemKey (i : ItemRow) : Nat × Nat × Int :=
  (i.order_id, i.product_id, i.shipping_limit_date)

/-- `df_order_items_` (streamlit.py lines 75-79): group the item table by
(order_id, product_id, shipping_limit_date) and aggregate
`product_counts = count`, `total_price = sum(price)`,
`total_value = sum(total_value)`.  pandas lists the group keys sorted;
every property proved below is independent of the row order of the
grouped table, so the keys are listed in `dedup` order instead.  The
aggregated row for one group key: -/
def mkItemGroup (items : List ItemRow) (k : Nat × Nat × Int) : ItemGroup :=
  { order_id := k.1
    product_id := k.2.1
    shipping_limit_date := k.2.2
    product_counts := (items.filter (fun i => itemKey i = k)).length
    total_price := ((items.filter (fun i => itemKey i = k)).map (fun i => i.price)).sum
    total_value := ((items.filter (fun i => itemKey i = k)).map total_value).sum }

def df_order_items_ (items : List ItemRow) : List ItemGroup :=
  ((items.map itemKey).dedup).map (mkItemGroup items)

/-- A row of `filtered_orders.merge(df_order_items_, how="left",
on="order_id")` (streamlit.py line 257): the order columns together with
the matched item-group columns, `none` when no group matched (pandas
fills the item columns with NaN there). -/
structure MergedRow where
  order : OrderRow
  item : Option ItemGroup
deriving DecidableEq

/-- The merge rows one order row contributes: one row per matching item
group, or a single unmatched row. -/
def rowsForOrder (groups : List ItemGroup) (o : OrderRow) : List MergedRow :=
  let ms := groups.filter (fun g => g.order_id = o.order_id)
  if ms.isEmpty then [{ order := o, item := none }]
  else ms.map (fun g => { order := o, item := some g })

/-- The left merge of streamlit.py line 257: each order row paired with
every matching item group, or with `none` when no group matches. -/
def mergedRows (orders : List OrderRow) (groups : List ItemGroup) : List MergedRow :=
  orders.flatMap (rowsForOrder groups)

/-- Maximum of the present timestamps: pandas `Series.max()` skips `NaT`
and returns `NaT` when every entry is missing. -/
def maxTimestamp (l : List (Option Int)) : Option Int :=
  (l.filterMap id).foldr
    (fun x acc =>
      match acc with
      | none => some x
      | some y => some (max x y))
    none

/-- One row of `data_orders` (streamlit.py lines 256-267). -/
structure CustomerProfile where
  customer_id : Nat
  last_purchase_date : Option Int
  order_count : Nat
  total_price : ℚ
deriving DecidableEq

/-- `data_orders` (streamlit.py lines 256-267): left-merge the orders of
the active filter window with `df_order_items_`, keep the rows with
`order_status == "delivered"`, group by `customer_id` and aggregate
`last_purchase_date = max(order_purchase_timestamp)`,
`order_count = nunique(order_id)`, `total_price = sum(total_price)`
(pandas `sum` skips the NaN of unmatched orders).  The trailing
`sort_values(by="order_count")` only reorders rows and every property
proved below is row-order independent, so it is omitted. -/
def mkCustomerProfile (merged : List MergedRow) (c : Nat) : CustomerProfile :=
  let rows := merged.filter (fun r => r.order.customer_id = c)
  { customer_id := c
    last_purchase_date := maxTimestamp (rows.map (fun r => r.order.order_purchase_timestamp))
    order_count := ((rows.map (fun r => r.order.order_id)).dedup).length
    total_price := ((rows.filterMap (fun r => r.item)).map (fun g => g.total_price)).sum }

def data_orders (orders : List OrderRow) (groups : List ItemGroup) : List CustomerProfile :=
  let merged := (mergedRows orders groups).filter
    (fun r => r.order.order_status = "delivered")
  ((merged.map (fun r => r.order.customer_id)).dedup).map (mkCustomerProfile merged)

/-- One day of the timestamp unit. -/
def secondsPerDay : Int := 86400

/-- `recency_date = df_rfm["last_purchase_date"].max() + pd.Timedelta(days=1)`
(streamlit.py line 273). -/
def recency_date (profiles : List CustomerProfile) : Option Int :=
  (maxTimestamp (profiles.map (fun p => p.last_purchase_date))).map
    (fun m => m + secondsPerDay)

/-- `(recency_date - x).days` with the `.fillna(0)` fallback (streamlit.py
line 274).  `Timedelta.days` is the floor of the difference in whole
days; a missing date on either side gives `NaT`, turned into 0 by
`fillna`. -/
def recencyDays (anchor : Option Int) (lpd : Option Int) : Int :=
  match anchor, lpd with
  | some a, some d => (a - d).fdiv secondsPerDay
  | _, _ => 0

/-- The four quantile breakpoints `.quantile([0.2, 0.4, 0.6, 0.8])` of one
dimension (streamlit.py lines 277-279). -/
structure Quartiles where
  q02 : ℚ
  q04 : ℚ
  q06 : ℚ
  q08 : ℚ
deriving DecidableEq

/-- Floor of a rational, kept executable for concrete runs (`Int.floor`
on `ℚ` does not reduce in the kernel). -/
def ratFloor (x : ℚ) : ℤ := x.num.fdiv x.den

/-- Stable insertion into a sorted list (`r a b` = "a may stay before b"). -/
def insertBy {α : Type} (r : α → α → Bool) (a : α) : List α → List α
  | [] => [a]
  | b :: bs => if r a b then a :: b :: bs else b :: insertBy r a bs

/-- Stable insertion sort, used in place of pandas' sorting (only the
multiset of rows matters to the properties proved below). -/
def sortBy {α : Type} (r : α → α → Bool) : List α → List α
  | [] => []
  | a :: as => insertBy r a (sortBy r as)

/-- pandas `Series.quantile(q)` with the default linear interpolation
between order statistics: for the sorted values `s` and `h = q·(n-1)`,
the result is `s[⌊h⌋] + (h - ⌊h⌋)·(s[⌊h⌋+1] - s[⌊h⌋])`.  On an empty
column pandas returns NaN; that value is never consumed (scores are only
computed when the population is non-empty), so 0 stands in for it. -/
def quantile (xs : List ℚ) (q : ℚ) : ℚ :=
  let s := sortBy (fun a b => a ≤ b) xs
  if s.isEmpty then 0
  else
    let h : ℚ := q * ((s.length : ℚ) - 1)
    let i : Nat := (ratFloor h).toNat
    let lo := s.getD i 0
    let hi := s.getD (min (i + 1) (s.length - 1)) 0
    lo + (h - (ratFloor h : ℚ)) * (hi - lo)

/-- The 0.2/0.4/0.6/0.8 breakpoints of one dimension (streamlit.py lines
277-279). -/
def quartilesOf (xs : List ℚ) : Quartiles :=
  ⟨quantile xs (1/5), quantile xs (2/5), quantile xs (3/5), quantile xs (4/5)⟩

/-- `r_score` (streamlit.py lines 282-292): recency is scored inversely. -/
def r_score (value : ℚ) (q : Quartiles) : Nat :=
  if value ≥ q.q08 then 1
  else if value ≥ q.q06 then 2
  else if value ≥ q.q04 then 3
  else if value ≥ q.q02 then 4
  else 5

/-- `f_score` (streamlit.py lines 294-304). -/
def f_score (value : ℚ) (q : Quartiles) : Nat :=
  if value ≥ q.q08 then 5
  else if value ≥ q.q06 then 4
  else if value ≥ q.q04 then 3
  else if value ≥ q.q02 then 2
  else 1

/-- `m_score` (streamlit.py lines 306-316). -/
def m_score (value : ℚ) (q : Quartiles) : Nat :=
  if value ≥ q.q08 then 5
  else if value ≥ q.q06 then 4
  else if value ≥ q.q04 then 3
  else if value ≥ q.q02 then 2
  else 1

/-- Code list of the `Champions` branch of `rfm_segment` (streamlit.py
line 330; the duplicated "545" of the source is preserved). -/
def championsCodes : List String :=
  ["555", "554", "545", "544", "545", "455", "445"]

/-- Code list of the `Loyal` branch (line 332). -/
def loyalCodes : List String :=
  ["543", "444", "435", "355", "354", "345", "344", "335"]

/-- Code list of the `Potential Loyalist` branch (lines 334-335). -/
def potentialLoyalistCodes : List String :=
  ["553", "551", "552", "541", "542", "533", "532", "531", "452", "451", "442", "441",
   "431", "453", "433", "432", "423", "353", "352", "351", "342", "341", "333", "323"]

/-- Code list of the `Promising` branch (lines 337-338). -/
def promisingCodes : List String :=
  ["525", "524", "523", "522", "521", "515", "514", "513", "425", "424", "413", "414",
   "415", "315", "314", "313"]

/-- Code list of the `New Customers` branch (line 340). -/
def newCustomersCodes : List String :=
  ["512", "511", "422", "421", "412", "411", "311"]

/-- Code list of the `Need Attention` branch (line 342). -/
def needAttentionCodes : List String :=
  ["535", "534", "443", "434", "343", "334", "325", "324"]

/-- Code list of the `About To Sleep` branch (line 344). -/
def aboutToSleepCodes : List String :=
  ["331", "321", "312", "221", "213", "231", "241", "251"]

/-- Code list of the `At Risk` branch (lines 346-347; the duplicated
"243" of the source is preserved). -/
def atRiskCodes : List String :=
  ["255", "254", "245", "244", "243", "252", "243", "242", "235", "234", "225", "224",
   "153", "152", "145", "143", "142", "135", "134", "133", "125", "124"]

/-- Code list of the `Cannot Lose Them` branch (line 349). -/
def cannotLoseThemCodes : List String :=
  ["155", "154", "144", "214", "215", "115", "114", "113"]

/-- Code list of the `Hibernating Customers` branch (line 351). -/
def hibernatingCodes : List String :=
  ["332", "322", "233", "232", "223", "222", "132", "123", "122", "212", "211"]

/-- Code list of the `Lost Customers` branch (line 353). -/
def lostCodes : List String :=
  ["111", "112", "121", "131", "141", "151"]

/-- `rfm_segment` (streamlit.py lines 329-356). -/
def rfm_segment (score : String) : String :=
  if score ∈ championsCodes then "Champions"
  else if score ∈ loyalCodes then "Loyal"
  else if score ∈ potentialLoyalistCodes then "Potential Loyalist"
  else if score ∈ promisingCodes then "Promising"
  else if score ∈ newCustomersCodes then "New Customers"
  else if score ∈ needAttentionCodes then "Need Attention"
  else if score ∈ aboutToSleepCodes then "About To Sleep"
  else if score ∈ atRiskCodes then "At Risk"
  else if score ∈ cannotLoseThemCodes then "Cannot Lose Them"
  else if score ∈ hibernatingCodes then "Hibernating Customers"
  else if score ∈ lostCodes then "Lost Customers"
  else "Other"

/-- The twelve labels `rfm_segment` can produce. -/
def segmentLabels : List String :=
  ["Champions", "Loyal", "Potential Loyalist", "Promising", "New Customers",
   "Need Attention", "About To Sleep", "At Risk", "Cannot Lose Them",
   "Hibernating Customers", "Lost Customers", "Other"]

/-- Spec §6 table, `Champions` row (transcribed from the specification, to
be compared with the code's own lists). -/
def specChampionsCodes : List String :=
  ["555", "554", "545", "544", "455", "445"]

/-- Spec §6 table, `Loyal` row. -/
def specLoyalCodes : List String :=
  ["543", "444", "435", "355", "354", "345", "344", "335"]

/-- Spec §6 table, `Potential Loyalist` row. -/
def specPotentialLoyalistCodes : List String :=
  ["553", "551", "552", "541", "542", "533", "532", "531", "452", "451", "442", "441",
   "431", "453", "433", "432", "423", "353", "352", "351", "342", "341", "333", "323"]

/-- Spec §6 table, `Promising` row. -/
def specPromisingCodes : List String :=
  ["525", "524", "523", "522", "521", "515", "514", "513", "425", "424", "413", "414",
   "415", "315", "314", "313"]

/-- Spec §6 table, `New Customers` row. -/
def specNewCustomersCodes : List String :=
  ["512", "511", "422", "421", "412", "411", "311"]

/-- Spec §6 table, `Need Attention` row. -/
def specNeedAttentionCodes : List String :=
  ["535", "534", "443", "434", "343", "334", "325", "324"]

/-- Spec §6 table, `About To Sleep` row. -/
def specAboutToSleepCodes : List String :=
  ["331", "321", "312", "221", "213", "231", "241", "251"]

/-- Spec §6 table, `At Risk` row. -/
def specAtRiskCodes : List String :=
  ["255", "254", "245", "244", "243", "252", "242", "235", "234", "225", "224",
   "153", "152", "145", "143", "142", "135", "134", "133", "125", "124"]

/-- Spec §6 table, `Cannot Lose Them` row. -/
def specCannotLoseThemCodes : List String :=
  ["155", "154", "144", "214", "215", "115", "114", "113"]

/-- Spec §6 table, `Hibernating Customers` row. -/
def specHibernatingCodes : List String :=
  ["332", "322", "233", "232", "223", "222", "132", "123", "122", "212", "211"]

/-- Spec §6 table, `Lost Customers` row. -/
def specLostCodes : List String :=
  ["111", "112", "121", "131", "141", "151"]

/-- Every code listed in one of the eleven named rows of the spec §6
table. -/
def specListedCodes : List String :=
  specChampionsCodes ++ specLoyalCodes ++ specPotentialLoyalistCodes ++
  specPromisingCodes ++ specNewCustomersCodes ++ specNeedAttentionCodes ++
  specAboutToSleepCodes ++ specAtRiskCodes ++ specCannotLoseThemCodes ++
  specHibernatingCodes ++ specLostCodes

/-- One row of `df_rfm` after scoring and classification (streamlit.py
lines 270-358). -/
structure RFMRecord where
  customer_unique_id : Nat
  last_purchase_date : Option Int
  freq : Nat
  monetary : ℚ
  recency : Int
  R_Score : Nat
  F_Score : Nat
  M_Score : Nat
  RFM_Score : String
  Segment : String
deriving DecidableEq

/-- `df_rfm` (streamlit.py lines 270-358): rename the `data_orders`
columns to (customer_unique_id, last_purchase_date, freq, monetary),
compute `recency` against the anchor of line 273, the per-dimension
quantile breakpoints of lines 277-279, the three digit scores, the
concatenated `RFM_Score` string and the `Segment` label.  The
`sort_values(by="last_purchase_date")` of line 270 only reorders rows
and every property proved below is row-order independent, so it is
omitted. -/
def mkRFMRecord (anchor : Option Int) (rq fq mq : Quartiles) (p : CustomerProfile) : RFMRecord :=
  let rec0 := recencyDays anchor p.last_purchase_date
  let R := r_score (rec0 : ℚ) rq
  let F := f_score (p.order_count : ℚ) fq
  let M := m_score p.total_price mq
  let code := toString R ++ toString F ++ toString M
  { customer_unique_id := p.customer_id
    last_purchase_date := p.last_purchase_date
    freq := p.order_count
    monetary := p.total_price
    recency := rec0
    R_Score := R
    F_Score := F
    M_Score := M
    RFM_Score := code
    Segment := rfm_segment code }

def df_rfm_records (profiles : List CustomerProfile) : List RFMRecord :=
  let anchor := recency_date profiles
  let r_quartiles := quartilesOf
    (profiles.map (fun p => (recencyDays anchor p.last_purchase_date : ℚ)))
  let f_quartiles := quartilesOf (profiles.map (fun p => (p.order_count : ℚ)))
  let m_quartiles := quartilesOf (profiles.map (fun p => p.total_price))
  profiles.map (mkRFMRecord anchor r_quartiles f_quartiles m_quartiles)

/-- The whole record pipeline: order aggregation (lines 75-79 and
256-267) followed by RFM scoring and classification (lines 270-358). -/
def rfm_pipeline (orders : List OrderRow) (items : List ItemRow) : List RFMRecord :=
  df_rfm_records (data_orders orders (df_order_items_ items))

/-- The segment multiselect filter `filtered_rfm` (streamlit.py line
365). -/
def filtered_rfm (records : List RFMRecord) (selected : List String) : List RFMRecord :=
  records.filter (fun r => r.Segment ∈ selected)

/-- One group of the summary `groupby` before the derived columns
(streamlit.py lines 368-376). -/
structure SegBase where
  segment : String
  customer_count : Nat
  total_monetary : ℚ
deriving DecidableEq

/-- The `groupby("Segment")` aggregation of `data_rfm_summary`
(streamlit.py lines 368-376): `customer_count = count`,
`total_monetary = sum(monetary)`.  pandas lists the groups sorted by
key; every property proved below is row-order independent, so the
groups are listed in `dedup` order instead. -/
def summaryBase (records : List RFMRecord) : List SegBase :=
  ((records.map (fun r => r.Segment)).dedup).map (fun s =>
    { segment := s
      customer_count := (records.filter (fun r => r.Segment = s)).length
      total_monetary := ((records.filter (fun r => r.Segment = s)).map (fun r => r.monetary)).sum })

/-- `total_monetary_all = data_rfm_summary["total_monetary"].sum()`
(streamlit.py line 378). -/
def total_monetary_all (records : List RFMRecord) : ℚ :=
  ((summaryBase records).map (fun b => b.total_monetary)).sum

/-- `data_rfm_summary["total_monetary"].min()` (streamlit.py line 384);
only consumed for a non-empty summary. -/
def summaryMin (records : List RFMRecord) : ℚ :=
  (((summaryBase records).map (fun b => b.total_monetary)).min?).getD 0

/-- `data_rfm_summary["total_monetary"].max()` (streamlit.py line 384);
only consumed for a non-empty summary. -/
def summaryMax (records : List RFMRecord) : ℚ :=
  (((summaryBase records).map (fun b => b.total_monetary)).max?).getD 0

/-- numpy/pandas rounding of `round(x, 2)` at scale 1: round to the
nearest integer, ties to the even neighbour. -/
def roundHalfEven (y : ℚ) : ℤ :=
  let f := ratFloor y
  let r := y - (f : ℚ)
  if r < 1/2 then f
  else if 1/2 < r then f + 1
  else if f % 2 = 0 then f else f + 1

/-- `round(x, 2)` of streamlit.py line 379 (numpy half-to-even). -/
def round2 (x : ℚ) : ℚ := (roundHalfEven (100 * x) : ℚ) / 100

/-- One row of `data_rfm_summary` after the derived columns of
streamlit.py lines 378-386.  `total_monetary_percent` is `none` when the
float division of line 380 has a zero denominator (pandas produces
NaN/±inf there instead of raising). -/
structure SummaryRow where
  segment : String
  customer_count : Nat
  total_monetary : ℚ
  total_monetary_percent : Option ℚ
  total_monetary_scaling : ℚ
deriving DecidableEq

/-- The derived columns of `data_rfm_summary` (streamlit.py lines
378-386): `total_monetary_percent = round(total_monetary /
total_monetary_all * 100, 2)` and the guarded min-max scaling
`(x - min) / (max - min) if (max - min) != 0 else 0`. -/
def mkSummaryRow (records : List RFMRecord) (b : SegBase) : SummaryRow :=
  { segment := b.segment
    customer_count := b.customer_count
    total_monetary := b.total_monetary
    total_monetary_percent :=
      if total_monetary_all records = 0 then none
      else some (round2 (b.total_monetary / total_monetary_all records * 100))
    total_monetary_scaling :=
      if summaryMax records - summaryMin records ≠ 0 then
        (b.total_monetary - summaryMin records) /
          (summaryMax records - summaryMin records)
      else 0 }

/-- `data_rfm_summary` (streamlit.py lines 368-386). -/
def data_rfm_summary (records : List RFMRecord) : List SummaryRow :=
  (summaryBase records).map (mkSummaryRow records)

/-- `data_rfm_summary.sort_values(by="total_monetary", ascending=False)`
(streamlit.py line 393), as a stable descending sort. -/
def sortedSummary (records : List RFMRecord) : List SummaryRow :=
  sortBy (fun a b => b.total_monetary ≤ a.total_monetary) (data_rfm_summary records)

/-- Running sums (`Series.cumsum()`), starting from `acc`. -/
def cumsumFrom (acc : ℚ) : List ℚ → List ℚ
  | [] => []
  | x :: xs => (acc + x) :: cumsumFrom (acc + x) xs

/-- A row of the Pareto view: the summary row together with its
`Cumulative_%` value; `none` models the non-finite float the division of
line 394 produces when the grand total is zero. -/
structure ParetoRow where
  base : SummaryRow
  cumulative : Option ℚ
deriving DecidableEq

/-- The Pareto view (streamlit.py lines 393-394): sort the summary by
`total_monetary` descending and attach
`Cumulative_% = total_monetary.cumsum() / total_monetary.sum() * 100`. -/
def pareto_summary (records : List RFMRecord) : List ParetoRow :=
  let sorted := sortedSummary records
  let total := ((sorted.map (fun r => r.total_monetary)).sum)
  List.zipWith
    (fun r c =>
      { base := r
        cumulative := if total = 0 then none else some (c / total * 100) })
    sorted (cumsumFrom 0 (sorted.map (fun r => r.total_monetary)))

/-- A delivered order used for concrete evaluations. -/
def witOrder : OrderRow := ⟨1, 7, "delivered", some 86400⟩

/-- An order item (price 10, freight 5) of `witOrder`. -/
def witItem : ItemRow := ⟨1, 3, 0, 10, 5⟩

/-- An order that is not delivered. -/
def witUndelivered : OrderRow := ⟨2, 8, "shipped", some 86400⟩

/-- The customer profile the aggregator produces from `witOrder` and
`witItem`. -/
def witProfile : CustomerProfile := ⟨7, some 86400, 1, 10⟩

/-- The RFM record produced from `witProfile` alone. -/
def witRecord : RFMRecord := ⟨7, some 86400, 1, 10, 1, 1, 5, 5, "155", "Cannot Lose Them"⟩

/-- The summary row produced from `witRecord` alone. -/
def witSummaryRow : SummaryRow := ⟨"Cannot Lose Them", 1, 10, some 100, 0⟩

/-- An RFM record with zero monetary value (a delivered order whose
items are all free, or one matching no item rows). -/
def zeroRecord : RFMRecord := ⟨7, some 86400, 1, 0, 1, 1, 5, 5, "155", "Cannot Lose Them"⟩

/- ------------------------------------------------------------------
   Generic list lemmas used by the pipeline proofs.
   ------------------------------------------------------------------ -/

theorem sum_filter_add_sum_filter_not {α : Type} (l : List α) (p : α → Bool) (f : α → ℚ) :
    ((l.filter p).map f).sum + ((l.filter (fun a => !(p a))).map f).sum = (l.map f).sum := by
  induction l with
  | nil => simp
  | cons a t ih =>
    by_cases h : p a = true <;>
      simp only [List.filter_cons, h, Bool.not_true, Bool.not_false, if_pos, if_neg,
        Bool.false_eq_true, not_false_eq_true, List.map_cons, List.sum_cons, ite_true,
        ite_false] <;> linarith

theorem sum_fiberwise {α κ : Type} [DecidableEq κ] (ks : List κ) (key : α → κ) (f : α → ℚ) :
    ∀ (l : List α), ks.Nodup → (∀ a ∈ l, key a ∈ ks) →
      (ks.map (fun k => ((l.filter (fun a => key a = k)).map f).sum)).sum = (l.map f).sum := by
  induction ks with
  | nil =>
    intro l _ hcov
    cases l with
    | nil => simp
    | cons a t => exact absurd (hcov a (by simp)) (by simp)
  | cons k ks ih =>
    intro l hnd hcov
    have hk : k ∉ ks := (List.nodup_cons.mp hnd).1
    have hnd2 := (List.nodup_cons.mp hnd).2
    have hstep : ∀ k2 ∈ ks,
        ((l.filter (fun a => key a = k2)).map f).sum =
        (((l.filter (fun a => !(decide (key a = k)))).filter (fun a => key a = k2)).map f).sum := by
      intro k2 hk2
      have hne : k2 ≠ k := fun he => hk (he ▸ hk2)
      rw [List.filter_filter]
      have : ∀ a ∈ l, (decide (key a = k2)) = (decide (key a = k2) && !(decide (key a = k))) := by
        intro a _
        by_cases h2 : key a = k2
        · have : ¬ (key a = k) := fun hkk => hne (h2 ▸ hkk ▸ rfl)
          simp [h2, this, hne]
        · simp [h2]
      exact (List.filter_congr this) ▸ rfl
    have hmap : (ks.map (fun k2 => ((l.filter (fun a => key a = k2)).map f).sum)) =
        (ks.map (fun k2 =>
          (((l.filter (fun a => !(decide (key a = k)))).filter (fun a => key a = k2)).map f).sum)) :=
      List.map_congr_left hstep
    have hcov2 : ∀ a ∈ l.filter (fun a => !(decide (key a = k))), key a ∈ ks := by
      intro a ha
      have hmem := (List.mem_filter.mp ha).1
      have hprop := (List.mem_filter.mp ha).2
      have hne : ¬ (key a = k) := by simpa using hprop
      have := hcov a hmem
      simp only [List.mem_cons] at this
      exact this.resolve_left hne
    have hih := ih (l.filter (fun a => !(decide (key a = k)))) hnd2 hcov2
    have hsplit := sum_filter_add_sum_filter_not l (fun a => decide (key a = k)) f
    simp only [List.map_cons, List.sum_cons]
    rw [hmap, hih]
    linarith

theorem filterMap_eq_of_map_eq_map_some {α β : Type} {g : α → Option β} :
    ∀ {l : List α} {q : List β}, l.map g = q.map some → l.filterMap g = q := by
  intro l
  induction l with
  | nil =>
    intro q h
    cases q with
    | nil => rfl
    | cons b t => simp at h
  | cons a t ih =>
    intro q h
    cases q with
    | nil => simp at h
    | cons b q2 =>
      simp only [List.map_cons, List.cons.injEq] at h
      rw [List.filterMap_cons, h.1]
      exact congrArg (b :: ·) (ih h.2)

theorem zipWith_const_right {α β γ : Type} (g : β → γ) :
    ∀ (as : List α) (bs : List β), as.length = bs.length →
      List.zipWith (fun _ b => g b) as bs = bs.map g := by
  intro as
  induction as with
  | nil => intro bs h; cases bs with
    | nil => rfl
    | cons b t => simp at h
  | cons a t ih =>
    intro bs h
    cases bs with
    | nil => simp at h
    | cons b bs2 =>
      simp only [List.length_cons, Nat.succ.injEq] at h
      simp [List.zipWith, ih bs2 h]

theorem cumsumFrom_length (l : List ℚ) : ∀ a, (cumsumFrom a l).length = l.length := by
  induction l with
  | nil => intro a; rfl
  | cons x xs ih => intro a; simp [cumsumFrom, ih]

theorem cumsumFrom_chain (l : List ℚ) (h : ∀ x ∈ l, 0 ≤ x) :
    ∀ a, List.Chain' (· ≤ ·) (cumsumFrom a l) := by
  induction l with
  | nil => intro a; simp [cumsumFrom]
  | cons x xs ih =>
    intro a
    have hxs : ∀ y ∈ xs, 0 ≤ y := fun y hy => h y (List.mem_cons_of_mem _ hy)
    have htail := ih hxs (a + x)
    cases xs with
    | nil => simp [cumsumFrom]
    | cons y ys =>
      refine List.Chain'.cons ?_ htail
      have : 0 ≤ y := h y (by simp)
      linarith

theorem cumsumFrom_getLast (l : List ℚ) (hl : l ≠ []) :
    ∀ a, (cumsumFrom a l).getLast? = some (a + l.sum) := by
  induction l with
  | nil => exact absurd rfl hl
  | cons x xs ih =>
    intro a
    cases xs with
    | nil => simp [cumsumFrom]
    | cons y ys =>
      have h2 := ih (by simp) (a + x)
      simp only [cumsumFrom] at h2 ⊢
      rw [List.getLast?_cons_cons, h2]
      simp only [List.sum_cons]
      exact congrArg some (by ring)

theorem insertBy_perm {α : Type} (r : α → α → Bool) (a : α) :
    ∀ (l : List α), (insertBy r a l).Perm (a :: l) := by
  intro l
  induction l with
  | nil => exact List.Perm.refl _
  | cons b bs ih =>
    simp only [insertBy]
    by_cases h : r a b = true
    · rw [if_pos h]
    · rw [if_neg h]
      exact (List.Perm.cons b ih).trans (List.Perm.swap a b bs)

theorem sortBy_perm {α : Type} (r : α → α → Bool) :
    ∀ (l : List α), (sortBy r l).Perm l := by
  intro l
  induction l with
  | nil => exact List.Perm.refl _
  | cons a as ih =>
    exact (insertBy_perm r a (sortBy r as)).trans (List.Perm.cons a ih)

theorem maxTimestamp_le {l : List (Option Int)} {m : Int}
    (h : maxTimestamp l = some m) : ∀ d : Int, some d ∈ l → d ≤ m := by
  unfold maxTimestamp at h
  have main : ∀ (xs : List Int) (mm : Int),
      (xs.foldr (fun x acc => match acc with
        | none => some x
        | some y => some (max x y)) none) = some mm → ∀ x ∈ xs, x ≤ mm := by
    intro xs
    induction xs with
    | nil => intro mm h2; simp at h2
    | cons a t ih =>
      intro mm h2 x hx
      simp only [List.foldr_cons] at h2
      cases ht : (t.foldr (fun x acc => match acc with
        | none => some x
        | some y => some (max x y)) none) with
      | none =>
        rw [ht] at h2
        simp only [Option.some.injEq] at h2
        have htnil : t = [] := by
          cases t with
          | nil => rfl
          | cons b u =>
            exfalso
            simp only [List.foldr_cons] at ht
            cases hu : (u.foldr (fun x acc => match acc with
              | none => some x
              | some y => some (max x y)) none) with
            | none => rw [hu] at ht; simp at ht
            | some z => rw [hu] at ht; simp at ht
        subst htnil
        simp only [List.mem_singleton] at hx
        subst hx
        exact le_of_eq h2
      | some y =>
        rw [ht] at h2
        simp only [Option.some.injEq] at h2
        rcases List.mem_cons.mp hx with rfl | hxt
        · rw [← h2]; exact le_max_left _ _
        · exact le_trans (ih y ht x hxt) (h2 ▸ le_max_right a y)
  intro d hd
  exact main _ m h d (List.mem_filterMap.mpr ⟨some d, hd, rfl⟩)

/-- `ratFloor` agrees with the mathematical floor. -/
theorem ratFloor_eq (x : ℚ) : ratFloor x = ⌊x⌋ := by
  rw [Rat.floor_def, ratFloor]
  exact Int.fdiv_eq_ediv _ (by positivity)

theorem abs_roundHalfEven_sub (y : ℚ) : |(roundHalfEven y : ℚ) - y| ≤ 1/2 := by
  have hf1 : ((ratFloor y : ℤ) : ℚ) ≤ y := by rw [ratFloor_eq]; exact Int.floor_le y
  have hf2 : y < ((ratFloor y : ℤ) : ℚ) + 1 := by rw [ratFloor_eq]; exact Int.lt_floor_add_one y
  unfold roundHalfEven
  by_cases h1 : y - ((ratFloor y : ℤ) : ℚ) < 1/2
  · rw [if_pos h1]
    rw [abs_sub_comm, abs_of_nonneg (by linarith)]
    linarith
  · rw [if_neg h1]
    by_cases h2 : (1:ℚ)/2 < y - ((ratFloor y : ℤ) : ℚ)
    · rw [if_pos h2]
      rw [abs_of_nonneg (by push_cast; linarith)]
      push_cast
      linarith
    · rw [if_neg h2]
      have heq : y - ((ratFloor y : ℤ) : ℚ) = 1/2 := le_antisymm (not_lt.mp h2) (not_lt.mp h1)
      by_cases h3 : ratFloor y % 2 = 0
      · rw [if_pos h3, abs_sub_comm, abs_of_nonneg (by linarith)]
        linarith
      · rw [if_neg h3, abs_of_nonneg (by push_cast; linarith)]
        push_cast
        linarith

theorem round2_err (x : ℚ) : |round2 x - x| ≤ 1/200 := by
  have h := abs_roundHalfEven_sub (100 * x)
  unfold round2
  have : (roundHalfEven (100 * x) : ℚ) / 100 - x = ((roundHalfEven (100 * x) : ℚ) - 100 * x) / 100 := by
    ring
  rw [this, abs_div, abs_of_pos (by norm_num : (0:ℚ) < 100)]
  linarith

/- ------------------------------------------------------------------
   Pipeline lemmas.
   ------------------------------------------------------------------ -/

theorem round2_bounds (x : ℚ) (h0 : 0 ≤ x) (h1 : x ≤ 100) :
    0 ≤ round2 x ∧ round2 x ≤ 100 := by
  have h := abs_le.mp (abs_roundHalfEven_sub (100 * x))
  have hge : (0:ℤ) ≤ roundHalfEven (100 * x) := by
    by_contra hc
    push_neg at hc
    have h2 : roundHalfEven (100 * x) ≤ -1 := by omega
    have h3 : ((roundHalfEven (100 * x) : ℤ) : ℚ) ≤ -1 := by exact_mod_cast h2
    linarith [h.1]
  have hle : roundHalfEven (100 * x) ≤ 10000 := by
    by_contra hc
    push_neg at hc
    have h2 : (10001 : ℤ) ≤ roundHalfEven (100 * x) := by omega
    have h3 : (10001:ℚ) ≤ ((roundHalfEven (100 * x) : ℤ) : ℚ) := by exact_mod_cast h2
    linarith [h.2]
  have hgeQ : (0:ℚ) ≤ (roundHalfEven (100 * x) : ℚ) := by exact_mod_cast hge
  have hleQ : ((roundHalfEven (100 * x) : ℤ) : ℚ) ≤ 10000 := by exact_mod_cast hle
  unfold round2
  constructor
  · exact div_nonneg hgeQ (by norm_num)
  · rw [div_le_iff₀ (by norm_num : (0:ℚ) < 100)]
    linarith

theorem r_score_mem (v : ℚ) (q : Quartiles) : r_score v q ∈ [1, 2, 3, 4, 5] := by
  unfold r_score
  split_ifs <;> simp

theorem f_score_mem (v : ℚ) (q : Quartiles) : f_score v q ∈ [1, 2, 3, 4, 5] := by
  unfold f_score
  split_ifs <;> simp

theorem m_score_mem (v : ℚ) (q : Quartiles) : m_score v q ∈ [1, 2, 3, 4, 5] := by
  unfold m_score
  split_ifs <;> simp

theorem rfm_segment_mem (s : String) : rfm_segment s ∈ segmentLabels := by
  unfold rfm_segment
  repeat' split
  all_goals decide

theorem toString_digit_length {n : Nat} (h : n ∈ [1, 2, 3, 4, 5]) :
    (toString n).length = 1 := by
  fin_cases h <;> rfl

theorem summary_tm_map (records : List RFMRecord) :
    (data_rfm_summary records).map (fun r => r.total_monetary) =
    (summaryBase records).map (fun b => b.total_monetary) := by
  unfold data_rfm_summary
  rw [List.map_map]
  rfl

theorem summaryBase_tm_nonneg (records : List RFMRecord)
    (hnn : ∀ r ∈ records, 0 ≤ r.monetary) :
    ∀ b ∈ summaryBase records, 0 ≤ b.total_monetary := by
  intro b hb
  unfold summaryBase at hb
  simp only [List.mem_map] at hb
  obtain ⟨s, _, rfl⟩ := hb
  refine List.sum_nonneg ?_
  intro x hx
  simp only [List.mem_map] at hx
  obtain ⟨r, hr, rfl⟩ := hx
  exact hnn r (List.mem_filter.mp hr).1

theorem total_monetary_all_nonneg (records : List RFMRecord)
    (hnn : ∀ r ∈ records, 0 ≤ r.monetary) : 0 ≤ total_monetary_all records := by
  refine List.sum_nonneg ?_
  intro x hx
  simp only [List.mem_map] at hx
  obtain ⟨b, hb, rfl⟩ := hx
  exact summaryBase_tm_nonneg records hnn b hb

theorem order_of_mem_rowsForOrder {groups : List ItemGroup} {o : OrderRow} {r : MergedRow}
    (h : r ∈ rowsForOrder groups o) : r.order = o := by
  simp only [rowsForOrder] at h
  by_cases he : (groups.filter (fun g => g.order_id = o.order_id)).isEmpty
  · rw [if_pos he] at h
    simp only [List.mem_singleton] at h
    rw [h]
  · rw [if_neg he] at h
    simp only [List.mem_map] at h
    obtain ⟨g, _, rfl⟩ := h
    rfl

theorem rowsForOrder_filter (p : OrderRow → Bool) (groups : List ItemGroup) (o : OrderRow) :
    (rowsForOrder groups o).filter (fun r => p r.order) =
    if p o then rowsForOrder groups o else [] := by
  have hall : ∀ r ∈ rowsForOrder groups o, (p r.order) = (p o) := by
    intro r hr
    rw [order_of_mem_rowsForOrder hr]
  rw [List.filter_congr hall]
  by_cases hp : p o <;> simp [hp]

theorem flatMap_filter {α β : Type} (p : α → Bool) (f : α → List β) :
    ∀ (l : List α), (l.filter p).flatMap f = l.flatMap (fun a => if p a then f a else []) := by
  intro l
  induction l with
  | nil => rfl
  | cons a t ih =>
    rw [List.filter_cons]
    by_cases hp : p a <;> simp [hp, List.flatMap_cons, ih]

theorem filter_mergedRows (p : OrderRow → Bool) (orders : List OrderRow)
    (groups : List ItemGroup) :
    (mergedRows orders groups).filter (fun r => p r.order) =
    mergedRows (orders.filter p) groups := by
  unfold mergedRows
  have h1 : (orders.flatMap (rowsForOrder groups)).filter (fun r => p r.order) =
      orders.flatMap (fun o => (rowsForOrder groups o).filter (fun r => p r.order)) := by
    induction orders with
    | nil => rfl
    | cons o t ih => simp only [List.flatMap_cons, List.filter_append, ih]
  rw [h1]
  simp only [rowsForOrder_filter]
  rw [flatMap_filter]

theorem mergedRows_item_sum (groups : List ItemGroup) :
    ∀ (os : List OrderRow),
      (((mergedRows os groups).filterMap (fun r => r.item)).map (fun g => g.total_price)).sum
        = (os.map (fun o =>
            ((groups.filter (fun g => g.order_id = o.order_id)).map (fun g => g.total_price)).sum)).sum := by
  intro os
  induction os with
  | nil => rfl
  | cons o t ih =>
    have hsplit : mergedRows (o :: t) groups = rowsForOrder groups o ++ mergedRows t groups := by
      simp [mergedRows, List.flatMap_cons]
    rw [hsplit, List.filterMap_append, List.map_append, List.sum_append, ih]
    simp only [List.map_cons, List.sum_cons]
    congr 1
    simp only [rowsForOrder]
    by_cases he : (groups.filter (fun g => g.order_id = o.order_id)).isEmpty
    · rw [if_pos he, List.isEmpty_iff.mp he]
      simp [List.filterMap_cons]
    · rw [if_neg he, List.filterMap_map]
      have hcomp : ((fun r : MergedRow => r.item) ∘
          (fun g : ItemGroup => ({ order := o, item := some g } : MergedRow))) = some := rfl
      rw [hcomp, List.filterMap_some]

theorem groups_fiber_sum (items : List ItemRow) (oid : Nat) :
    (((df_order_items_ items).filter (fun g => g.order_id = oid)).map (fun g => g.total_price)).sum
      = ((items.filter (fun i => i.order_id = oid)).map (fun i => i.price)).sum := by
  unfold df_order_items_
  rw [List.filter_map, List.map_map]
  have h1 : ((items.map itemKey).dedup.filter
        ((fun g : ItemGroup => decide (g.order_id = oid)) ∘ mkItemGroup items)) =
      (items.map itemKey).dedup.filter (fun k => decide (k.1 = oid)) :=
    List.filter_congr (fun k _ => rfl)
  rw [h1]
  have h2 : ∀ k ∈ (items.map itemKey).dedup.filter (fun k => decide (k.1 = oid)),
      ((fun g : ItemGroup => g.total_price) ∘ mkItemGroup items) k =
      (fun k => (((items.filter (fun i => i.order_id = oid)).filter
        (fun i => itemKey i = k)).map (fun i => i.price)).sum) k := by
    intro k hk
    have hoid : k.1 = oid := by simpa using (List.mem_filter.mp hk).2
    simp only [Function.comp, mkItemGroup]
    rw [List.filter_filter]
    refine congrArg _ (congrArg _ (List.filter_congr ?_))
    intro i _
    by_cases hik : itemKey i = k
    · have hio : i.order_id = oid := by
        have : (itemKey i).1 = k.1 := by rw [hik]
        simpa [itemKey, hoid] using this
      simp [hik, hio]
    · simp [hik]
  rw [List.map_congr_left h2]
  refine sum_fiberwise _ itemKey (fun i => i.price) _
    ((List.nodup_dedup _).filter _) ?_
  intro a ha
  have hmem := (List.mem_filter.mp ha).1
  have hprop : a.order_id = oid := by simpa using (List.mem_filter.mp ha).2
  refine List.mem_filter.mpr ⟨List.mem_dedup.mpr (List.mem_map_of_mem itemKey hmem), ?_⟩
  simp [itemKey, hprop]

theorem sum_filter_mem_cons {α : Type} (key : α → Nat) (f : α → ℚ) (a : Nat)
    (ids : List Nat) (ha : a ∉ ids) :
    ∀ (l : List α),
      ((l.filter (fun x => key x ∈ a :: ids)).map f).sum =
      ((l.filter (fun x => key x = a)).map f).sum +
        ((l.filter (fun x => key x ∈ ids)).map f).sum := by
  intro l
  induction l with
  | nil => simp
  | cons x t ih =>
    by_cases h1 : key x = a
    · have h2 : key x ∉ ids := by rw [h1]; exact ha
      simp only [List.filter_cons]
      rw [if_pos (show (decide (key x ∈ a :: ids)) = true by simp [h1]),
        if_pos (show (decide (key x = a)) = true by simp [h1]),
        if_neg (show ¬ (decide (key x ∈ ids)) = true by simp [h2])]
      simp only [List.map_cons, List.sum_cons]
      linarith
    · by_cases h2 : key x ∈ ids
      · simp only [List.filter_cons]
        rw [if_pos (show (decide (key x ∈ a :: ids)) = true by simp [h2]),
          if_neg (show ¬ (decide (key x = a)) = true by simp [h1]),
          if_pos (show (decide (key x ∈ ids)) = true by simp [h2])]
        simp only [List.map_cons, List.sum_cons]
        linarith
      · simp only [List.filter_cons]
        rw [if_neg (show ¬ (decide (key x ∈ a :: ids)) = true by simp [h1, h2]),
          if_neg (show ¬ (decide (key x = a)) = true by simp [h1]),
          if_neg (show ¬ (decide (key x ∈ ids)) = true by simp [h2])]
        exact ih

theorem sum_over_orders (items : List ItemRow) :
    ∀ (os : List OrderRow), ((os.map (fun o => o.order_id)).Nodup) →
      (os.map (fun o =>
        ((items.filter (fun i => i.order_id = o.order_id)).map (fun i => i.price)).sum)).sum
      = ((items.filter (fun i =>
          i.order_id ∈ os.map (fun o => o.order_id))).map (fun i => i.price)).sum := by
  intro os
  induction os with
  | nil =>
    intro _
    simp
  | cons o t ih =>
    intro hnd
    simp only [List.map_cons] at hnd
    have hnotin : o.order_id ∉ t.map (fun o => o.order_id) := (List.nodup_cons.mp hnd).1
    have hnd2 := (List.nodup_cons.mp hnd).2
    simp only [List.map_cons, List.sum_cons]
    rw [sum_filter_mem_cons (fun i : ItemRow => i.order_id) (fun i => i.price)
      o.order_id (t.map (fun o => o.order_id)) hnotin items]
    rw [ih hnd2]

/- ------------------------------------------------------------------
   Claim theorems.
   ------------------------------------------------------------------ -/

/-- C10: the codes "454" and "253" have all digits in 1-5, appear in none
of the eleven named code lists of the spec table, and the classifier maps
them to "Other" — so the catch-all segment is reachable for valid
in-range scores. -/
theorem C10_other_reachable :
    rfm_segment "454" = "Other" ∧ rfm_segment "253" = "Other" ∧
    "454" ∉ specListedCodes ∧ "253" ∉ specListedCodes ∧
    ("454".toList.all (fun c => c ∈ ['1', '2', '3', '4', '5'])) = true ∧
    ("253".toList.all (fun c => c ∈ ['1', '2', '3', '4', '5'])) = true ∧
    "454".length = 3 ∧ "253".length = 3 := by
  decide

/-- C2: `rfm_segment` reproduces the fixed code-to-segment table of spec
§6 exactly — every code listed under one of the eleven named segments is
mapped to that segment's name, and every code listed under none of them
is mapped to "Other"; the function is total by construction. -/
theorem C2_segment_table (s : String) :
    (s ∈ specChampionsCodes → rfm_segment s = "Champions") ∧
    (s ∈ specLoyalCodes → rfm_segment s = "Loyal") ∧
    (s ∈ specPotentialLoyalistCodes → rfm_segment s = "Potential Loyalist") ∧
    (s ∈ specPromisingCodes → rfm_segment s = "Promising") ∧
    (s ∈ specNewCustomersCodes → rfm_segment s = "New Customers") ∧
    (s ∈ specNeedAttentionCodes → rfm_segment s = "Need Attention") ∧
    (s ∈ specAboutToSleepCodes → rfm_segment s = "About To Sleep") ∧
    (s ∈ specAtRiskCodes → rfm_segment s = "At Risk") ∧
    (s ∈ specCannotLoseThemCodes → rfm_segment s = "Cannot Lose Them") ∧
    (s ∈ specHibernatingCodes → rfm_segment s = "Hibernating Customers") ∧
    (s ∈ specLostCodes → rfm_segment s = "Lost Customers") ∧
    (s ∉ specListedCodes → rfm_segment s = "Other") := by
  have sub1 : ∀ a ∈ championsCodes, a ∈ specListedCodes := by decide
  have sub2 : ∀ a ∈ loyalCodes, a ∈ specListedCodes := by decide
  have sub3 : ∀ a ∈ potentialLoyalistCodes, a ∈ specListedCodes := by decide
  have sub4 : ∀ a ∈ promisingCodes, a ∈ specListedCodes := by decide
  have sub5 : ∀ a ∈ newCustomersCodes, a ∈ specListedCodes := by decide
  have sub6 : ∀ a ∈ needAttentionCodes, a ∈ specListedCodes := by decide
  have sub7 : ∀ a ∈ aboutToSleepCodes, a ∈ specListedCodes := by decide
  have sub8 : ∀ a ∈ atRiskCodes, a ∈ specListedCodes := by decide
  have sub9 : ∀ a ∈ cannotLoseThemCodes, a ∈ specListedCodes := by decide
  have sub10 : ∀ a ∈ hibernatingCodes, a ∈ specListedCodes := by decide
  have sub11 : ∀ a ∈ lostCodes, a ∈ specListedCodes := by decide
  refine ⟨?_, ?_, ?_, ?_, ?_, ?_, ?_, ?_, ?_, ?_, ?_, ?_⟩
  · intro h
    simp only [specChampionsCodes] at h
    fin_cases h <;> rfl
  · intro h
    simp only [specLoyalCodes] at h
    fin_cases h <;> rfl
  · intro h
    simp only [specPotentialLoyalistCodes] at h
    fin_cases h <;> rfl
  · intro h
    simp only [specPromisingCodes] at h
    fin_cases h <;> rfl
  · intro h
    simp only [specNewCustomersCodes] at h
    fin_cases h <;> rfl
  · intro h
    simp only [specNeedAttentionCodes] at h
    fin_cases h <;> rfl
  · intro h
    simp only [specAboutToSleepCodes] at h
    fin_cases h <;> rfl
  · intro h
    simp only [specAtRiskCodes] at h
    fin_cases h <;> rfl
  · intro h
    simp only [specCannotLoseThemCodes] at h
    fin_cases h <;> rfl
  · intro h
    simp only [specHibernatingCodes] at h
    fin_cases h <;> rfl
  · intro h
    simp only [specLostCodes] at h
    fin_cases h <;> rfl
  · intro h
    unfold rfm_segment
    rw [if_neg (fun hm => h (sub1 s hm)), if_neg (fun hm => h (sub2 s hm)),
      if_neg (fun hm => h (sub3 s hm)), if_neg (fun hm => h (sub4 s hm)),
      if_neg (fun hm => h (sub5 s hm)), if_neg (fun hm => h (sub6 s hm)),
      if_neg (fun hm => h (sub7 s hm)), if_neg (fun hm => h (sub8 s hm)),
      if_neg (fun hm => h (sub9 s hm)), if_neg (fun hm => h (sub10 s hm)),
      if_neg (fun hm => h (sub11 s hm))]

/-- Witness for C2: the table theorem applied at the codes "555" and
"999". -/
theorem C2_segment_table_witness :
    rfm_segment "555" = "Champions" ∧ rfm_segment "999" = "Other" :=
  ⟨(C2_segment_table "555").1 (by decide),
    (C2_segment_table "999").2.2.2.2.2.2.2.2.2.2.2 (by decide)⟩

/-- C3: with ordered breakpoints, frequency and monetary scoring place a
value in the quintile selected by the inclusive `>=` chain evaluated
top-down (5 for v ≥ q08 down to 1 below q02), and recency scoring is the
inverted chain (1 for v ≥ q08 up to 5 below q02). -/
theorem C3_quintile_scoring (v q02 q04 q06 q08 : ℚ)
    (h24 : q02 ≤ q04) (h46 : q04 ≤ q06) (h68 : q06 ≤ q08) :
    (q08 ≤ v →
      f_score v ⟨q02, q04, q06, q08⟩ = 5 ∧ m_score v ⟨q02, q04, q06, q08⟩ = 5 ∧
      r_score v ⟨q02, q04, q06, q08⟩ = 1) ∧
    (q06 ≤ v ∧ v < q08 →
      f_score v ⟨q02, q04, q06, q08⟩ = 4 ∧ m_score v ⟨q02, q04, q06, q08⟩ = 4 ∧
      r_score v ⟨q02, q04, q06, q08⟩ = 2) ∧
    (q04 ≤ v ∧ v < q06 →
      f_score v ⟨q02, q04, q06, q08⟩ = 3 ∧ m_score v ⟨q02, q04, q06, q08⟩ = 3 ∧
      r_score v ⟨q02, q04, q06, q08⟩ = 3) ∧
    (q02 ≤ v ∧ v < q04 →
      f_score v ⟨q02, q04, q06, q08⟩ = 2 ∧ m_score v ⟨q02, q04, q06, q08⟩ = 2 ∧
      r_score v ⟨q02, q04, q06, q08⟩ = 4) ∧
    (v < q02 →
      f_score v ⟨q02, q04, q06, q08⟩ = 1 ∧ m_score v ⟨q02, q04, q06, q08⟩ = 1 ∧
      r_score v ⟨q02, q04, q06, q08⟩ = 5) := by
  refine ⟨fun h => ?_, fun h => ?_, fun h => ?_, fun h => ?_, fun h => ?_⟩ <;>
    unfold f_score m_score r_score <;>
    split_ifs <;>
    try exact ⟨rfl, rfl, rfl⟩
  all_goals exfalso
  all_goals try obtain ⟨ha, hb⟩ := h
  all_goals linarith

/-- Witness for C3: a value at the top breakpoint of a concrete ordered
quartile tuple. -/
theorem C3_quintile_scoring_witness :
    f_score 4 ⟨1, 2, 3, 4⟩ = 5 ∧ m_score 4 ⟨1, 2, 3, 4⟩ = 5 ∧
    r_score 4 ⟨1, 2, 3, 4⟩ = 1 :=
  (C3_quintile_scoring 4 1 2 3 4 (by decide) (by decide) (by decide)).1 (by decide)

/-- C4: every record the scoring stage produces has its three digit
scores in {1,2,3,4,5}, an `RFM_Score` that is exactly the three decimal
digits R, F, M concatenated (hence of length 3), and a `Segment` that is
one of the twelve defined labels, never empty. -/
theorem C4_record_invariants (profiles : List CustomerProfile) (rec : RFMRecord)
    (hrec : rec ∈ df_rfm_records profiles) :
    rec.R_Score ∈ [1, 2, 3, 4, 5] ∧ rec.F_Score ∈ [1, 2, 3, 4, 5] ∧
    rec.M_Score ∈ [1, 2, 3, 4, 5] ∧
    rec.RFM_Score = toString rec.R_Score ++ toString rec.F_Score ++ toString rec.M_Score ∧
    rec.RFM_Score.length = 3 ∧
    rec.Segment ∈ segmentLabels ∧ rec.Segment ≠ "" := by
  unfold df_rfm_records at hrec
  simp only [List.mem_map] at hrec
  obtain ⟨p, hp, rfl⟩ := hrec
  simp only [mkRFMRecord]
  refine ⟨r_score_mem _ _, f_score_mem _ _, m_score_mem _ _, trivial, ?_, rfm_segment_mem _, ?_⟩
  · rw [String.length_append, String.length_append,
      toString_digit_length (r_score_mem _ _), toString_digit_length (f_score_mem _ _),
      toString_digit_length (m_score_mem _ _)]
  · have hne : ∀ t ∈ segmentLabels, t ≠ "" := by decide
    exact hne _ (rfm_segment_mem _)

attribute [local semireducible] Rat.add Rat.mul Rat.sub Rat.inv in
/-- Witness for C4: the invariants instantiated on the record produced
from one concrete customer profile. -/
theorem C4_record_invariants_witness :
    witRecord.R_Score ∈ [1, 2, 3, 4, 5] ∧ witRecord.F_Score ∈ [1, 2, 3, 4, 5] ∧
    witRecord.M_Score ∈ [1, 2, 3, 4, 5] ∧
    witRecord.RFM_Score =
      toString witRecord.R_Score ++ toString witRecord.F_Score ++ toString witRecord.M_Score ∧
    witRecord.RFM_Score.length = 3 ∧
    witRecord.Segment ∈ segmentLabels ∧ witRecord.Segment ≠ "" :=
  C4_record_invariants [witProfile] witRecord (by decide)

/-- C5: the recency anchor is the maximal present last-purchase date
plus one day; every record keeps its row (none are dropped), a missing
last-purchase date yields recency 0, and a present one yields the
floored whole-day difference to the anchor, which is non-negative. -/
theorem C5_recency (profiles : List CustomerProfile) :
    (df_rfm_records profiles).length = profiles.length ∧
    ∀ rec ∈ df_rfm_records profiles,
      (rec.last_purchase_date = none → rec.recency = 0) ∧
      (∀ d m, rec.last_purchase_date = some d →
        maxTimestamp (profiles.map (fun p => p.last_purchase_date)) = some m →
        recency_date profiles = some (m + secondsPerDay) ∧
        rec.recency = (m + secondsPerDay - d).fdiv secondsPerDay ∧
        0 ≤ rec.recency) := by
  have hrdnone : ∀ a, recencyDays a none = 0 := by
    intro a
    cases a <;> rfl
  constructor
  · unfold df_rfm_records
    simp
  · intro rec hrec
    unfold df_rfm_records at hrec
    simp only [List.mem_map] at hrec
    obtain ⟨p, hp, rfl⟩ := hrec
    simp only [mkRFMRecord]
    constructor
    · intro hnone
      rw [hnone, hrdnone]
    · intro d m hd hm
      have hanchor : recency_date profiles = some (m + secondsPerDay) := by
        unfold recency_date
        rw [hm]
        rfl
      have hdm : d ≤ m := maxTimestamp_le hm d (List.mem_map.mpr ⟨p, hp, hd⟩)
      refine ⟨hanchor, ?_, ?_⟩
      · rw [hanchor, hd]
        rfl
      · rw [hanchor, hd]
        show 0 ≤ (m + secondsPerDay - d).fdiv secondsPerDay
        refine Int.fdiv_nonneg ?_ (by norm_num [secondsPerDay])
        simp only [secondsPerDay]
        omega

attribute [local semireducible] Rat.add Rat.mul Rat.sub Rat.inv in
/-- Witness for C5: the recency clauses evaluated on one concrete
profile whose last purchase is one day before the anchor. -/
theorem C5_recency_witness :
    (df_rfm_records [witProfile]).length = [witProfile].length ∧
    (recency_date [witProfile] = some (86400 + secondsPerDay) ∧
     witRecord.recency = (86400 + secondsPerDay - 86400).fdiv secondsPerDay ∧
     0 ≤ witRecord.recency) :=
  ⟨(C5_recency [witProfile]).1,
    ((C5_recency [witProfile]).2 witRecord (by decide)).2 86400 86400 (by decide) (by decide)⟩

/-- C6: each summary row's `total_monetary_scaling` is the min-max
normalisation `(x - min) / (max - min)` over the rows of the same
summary, and it is 0 for every row when max equals min, with the zero
denominator explicitly guarded. -/
theorem C6_minmax_scaling (records : List RFMRecord) (row : SummaryRow)
    (hrow : row ∈ data_rfm_summary records) (mn mx : ℚ)
    (hmn : (((data_rfm_summary records).map (fun r => r.total_monetary)).min?) = some mn)
    (hmx : (((data_rfm_summary records).map (fun r => r.total_monetary)).max?) = some mx) :
    (mx ≠ mn → row.total_monetary_scaling = (row.total_monetary - mn) / (mx - mn)) ∧
    (mx = mn → row.total_monetary_scaling = 0) := by
  rw [summary_tm_map] at hmn hmx
  have hmin : summaryMin records = mn := by
    unfold summaryMin
    rw [hmn]
    rfl
  have hmax : summaryMax records = mx := by
    unfold summaryMax
    rw [hmx]
    rfl
  unfold data_rfm_summary at hrow
  simp only [List.mem_map] at hrow
  obtain ⟨b, hb, rfl⟩ := hrow
  simp only [mkSummaryRow]
  rw [hmax, hmin]
  constructor
  · intro hne
    rw [if_pos (sub_ne_zero_of_ne hne)]
  · intro heq
    rw [if_neg (not_not.mpr (sub_eq_zero_of_eq heq))]

attribute [local semireducible] Rat.add Rat.mul Rat.sub Rat.inv in
/-- Witness for C6: a single-segment summary, where max equals min and
the scaling is 0. -/
theorem C6_minmax_scaling_witness :
    witSummaryRow.total_monetary_scaling = 0 :=
  (C6_minmax_scaling [witRecord] witSummaryRow (by decide) 10 10
    (by decide) (by decide)).2 rfl

/-- C9: a population with no delivered order produces an empty profile
table, an empty record table, an empty summary and an empty Pareto view;
every stage is a total function, so no exception can arise. -/
theorem C9_empty_propagation (orders : List OrderRow) (items : List ItemRow)
    (h : ∀ o ∈ orders, o.order_status ≠ "delivered") :
    data_orders orders (df_order_items_ items) = [] ∧
    rfm_pipeline orders items = [] ∧
    data_rfm_summary (rfm_pipeline orders items) = [] ∧
    pareto_summary (rfm_pipeline orders items) = [] := by
  have hfe : orders.filter (fun o => o.order_status = "delivered") = [] := by
    rw [List.filter_eq_nil_iff]
    intro o ho
    simpa using h o ho
  have hdo : data_orders orders (df_order_items_ items) = [] := by
    unfold data_orders
    rw [filter_mergedRows (fun o => decide (o.order_status = "delivered")) orders
      (df_order_items_ items), hfe]
    rfl
  have hpl : rfm_pipeline orders items = [] := by
    unfold rfm_pipeline
    rw [hdo]
    rfl
  refine ⟨hdo, hpl, ?_, ?_⟩ <;> rw [hpl] <;> rfl

attribute [local semireducible] Rat.add Rat.mul Rat.sub Rat.inv in
/-- Witness for C9: one undelivered order propagates to empty outputs at
every stage. -/
theorem C9_empty_propagation_witness :
    data_orders [witUndelivered] (df_order_items_ [witItem]) = [] ∧
    rfm_pipeline [witUndelivered] [witItem] = [] ∧
    data_rfm_summary (rfm_pipeline [witUndelivered] [witItem]) = [] ∧
    pareto_summary (rfm_pipeline [witUndelivered] [witItem]) = [] :=
  C9_empty_propagation [witUndelivered] [witItem] (by decide)

attribute [local semireducible] Rat.add Rat.mul Rat.sub Rat.inv in
/-- Counterexample for C8: a single record of zero monetary value gives
a non-empty summary whose grand total is 0; the float division of
line 380 is then non-finite (modelled `none`), so the percent is not in
[0, 100] and the percent column does not sum to 100. -/
theorem C8_counterexample :
    (data_rfm_summary [zeroRecord]) ≠ [] ∧
    (data_rfm_summary [zeroRecord]).map (fun row => row.total_monetary_percent) = [none] ∧
    ((data_rfm_summary [zeroRecord]).filterMap (fun row => row.total_monetary_percent)).sum = 0 ∧
    ((0:ℚ) = 100 → False) := by
  decide

/-- C8 (amended): for records with non-negative monetary values and a
non-zero grand total, every summary row's percent is the rounded share
`round2 (total_monetary / grand * 100)`, lies in [0, 100], and the
percent column sums to 100 up to 0.01 per row. -/
theorem C8_percent_amended (records : List RFMRecord)
    (hnn : ∀ r ∈ records, 0 ≤ r.monetary)
    (hgt : total_monetary_all records ≠ 0) :
    (∀ row ∈ data_rfm_summary records,
      row.total_monetary_percent =
        some (round2 (row.total_monetary / total_monetary_all records * 100)) ∧
      ∀ v, row.total_monetary_percent = some v → 0 ≤ v ∧ v ≤ 100) ∧
    |((data_rfm_summary records).filterMap (fun row => row.total_monetary_percent)).sum - 100| ≤
      ((data_rfm_summary records).length : ℚ) * (1/100) := by
  have hb := summaryBase_tm_nonneg records hnn
  have hg0 : 0 ≤ total_monetary_all records := total_monetary_all_nonneg records hnn
  have hgpos : 0 < total_monetary_all records := lt_of_le_of_ne hg0 (Ne.symm hgt)
  have hshare : ∀ b ∈ summaryBase records,
      0 ≤ b.total_monetary / total_monetary_all records * 100 ∧
      b.total_monetary / total_monetary_all records * 100 ≤ 100 := by
    intro b hbmem
    have h0 := hb b hbmem
    have hle : b.total_monetary ≤ total_monetary_all records := by
      refine List.single_le_sum ?_ _ (List.mem_map_of_mem _ hbmem)
      intro x hx
      simp only [List.mem_map] at hx
      obtain ⟨b2, hb2, rfl⟩ := hx
      exact hb b2 hb2
    constructor
    · exact mul_nonneg (div_nonneg h0 hg0) (by norm_num)
    · have hd1 : b.total_monetary / total_monetary_all records ≤ 1 :=
        (div_le_one hgpos).mpr hle
      linarith
  constructor
  · intro row hrow
    unfold data_rfm_summary at hrow
    simp only [List.mem_map] at hrow
    obtain ⟨b, hbm, rfl⟩ := hrow
    constructor
    · simp only [mkSummaryRow]
      rw [if_neg hgt]
    · intro v hv
      simp only [mkSummaryRow] at hv
      rw [if_neg hgt] at hv
      obtain rfl := (Option.some.inj hv).symm
      exact round2_bounds _ (hshare b hbm).1 (hshare b hbm).2
  · have hmapeq : (data_rfm_summary records).filterMap (fun row => row.total_monetary_percent) =
        ((summaryBase records).map
          (fun b => b.total_monetary / total_monetary_all records * 100)).map round2 := by
      unfold data_rfm_summary
      rw [List.filterMap_map]
      refine filterMap_eq_of_map_eq_map_some ?_
      rw [List.map_map, List.map_map]
      refine List.map_congr_left ?_
      intro b _
      simp only [Function.comp_apply, mkSummaryRow]
      rw [if_neg hgt]
    rw [hmapeq]
    have hsh : ((summaryBase records).map
        (fun b => b.total_monetary / total_monetary_all records * 100)).sum = 100 := by
      have h1 : ((summaryBase records).map
          (fun b => b.total_monetary / total_monetary_all records * 100)) =
          ((summaryBase records).map
            (fun b => b.total_monetary * (100 / total_monetary_all records))) := by
        refine List.map_congr_left ?_
        intro b _
        ring
      rw [h1, List.sum_map_mul_right]
      rw [show ((summaryBase records).map (fun b => b.total_monetary)).sum =
        total_monetary_all records from rfl]
      rw [mul_comm, div_mul_cancel₀ _ hgt]
    have htri : ∀ (l : List ℚ), |(l.map round2).sum - l.sum| ≤ (l.length : ℚ) * (1/200) := by
      intro l
      induction l with
      | nil => simp
      | cons x t ih =>
        simp only [List.map_cons, List.sum_cons, List.length_cons]
        have h1 := round2_err x
        have h2 : round2 x + (t.map round2).sum - (x + t.sum) =
            (round2 x - x) + ((t.map round2).sum - t.sum) := by ring
        rw [h2]
        refine le_trans (abs_add _ _) ?_
        push_cast
        linarith
    have hres := htri ((summaryBase records).map
      (fun b => b.total_monetary / total_monetary_all records * 100))
    rw [hsh, List.length_map] at hres
    have hlen : (data_rfm_summary records).length = (summaryBase records).length := by
      unfold data_rfm_summary
      exact List.length_map _ _
    rw [hlen]
    refine le_trans hres ?_
    have hnn2 : (0:ℚ) ≤ ((summaryBase records).length : ℚ) := by positivity
    linarith

attribute [local semireducible] Rat.add Rat.mul Rat.sub Rat.inv in
/-- Witness for C8: the sum clause on a one-record population with
monetary value 10. -/
theorem C8_percent_amended_witness :
    |((data_rfm_summary [witRecord]).filterMap (fun row => row.total_monetary_percent)).sum - 100| ≤
      ((data_rfm_summary [witRecord]).length : ℚ) * (1/100) :=
  (C8_percent_amended [witRecord] (by decide) (by decide)).2

attribute [local semireducible] Rat.add Rat.mul Rat.sub Rat.inv in
/-- Counterexample for C7: on a non-empty summary with zero grand total
the cumulative column of line 394 is non-finite (`none`), so the last
row does not reach 100. -/
theorem C7_counterexample :
    (pareto_summary [zeroRecord]) ≠ [] ∧
    (pareto_summary [zeroRecord]).map (fun r => r.cumulative) = [none] ∧
    ((pareto_summary [zeroRecord]).map (fun r => r.cumulative)).getLast? ≠
      some (some (100:ℚ)) := by
  decide

/-- C7 (amended): for a non-empty record set with non-negative monetary
values and a non-zero grand total, every Pareto row carries a finite
cumulative percentage, the column is non-decreasing row-to-row, and the
last row equals exactly 100. -/
theorem C7_pareto_amended (records : List RFMRecord) (h0 : records ≠ [])
    (hnn : ∀ r ∈ records, 0 ≤ r.monetary)
    (hgt : total_monetary_all records ≠ 0) :
    ((pareto_summary records).filterMap (fun r => r.cumulative)).length =
      (pareto_summary records).length ∧
    List.Chain' (· ≤ ·) ((pareto_summary records).filterMap (fun r => r.cumulative)) ∧
    ((pareto_summary records).filterMap (fun r => r.cumulative)).getLast? = some 100 := by
  have hg0 : 0 ≤ total_monetary_all records := total_monetary_all_nonneg records hnn
  have hgpos : 0 < total_monetary_all records := lt_of_le_of_ne hg0 (Ne.symm hgt)
  have hperm : (sortedSummary records).Perm (data_rfm_summary records) := sortBy_perm _ _
  have htm : ((sortedSummary records).map (fun r => r.total_monetary)).sum =
      total_monetary_all records := by
    rw [(hperm.map (fun r => r.total_monetary)).sum_eq, summary_tm_map]
    rfl
  have hsum0 : data_rfm_summary records ≠ [] := by
    intro hc
    apply h0
    unfold data_rfm_summary summaryBase at hc
    simpa [List.map_eq_nil_iff, List.dedup_eq_nil] using hc
  have hsorted0 : sortedSummary records ≠ [] := by
    intro hc
    apply hsum0
    have hl := hperm.length_eq
    rw [hc] at hl
    exact List.length_eq_zero.mp hl.symm
  have hts0 : (sortedSummary records).map (fun r => r.total_monetary) ≠ [] := by
    simpa [List.map_eq_nil_iff] using hsorted0
  have htsnn : ∀ x ∈ (sortedSummary records).map (fun r => r.total_monetary), 0 ≤ x := by
    intro x hx
    simp only [List.mem_map] at hx
    obtain ⟨row, hrow, rfl⟩ := hx
    have hrow2 : row ∈ data_rfm_summary records := hperm.mem_iff.mp hrow
    unfold data_rfm_summary at hrow2
    simp only [List.mem_map] at hrow2
    obtain ⟨b, hbm, rfl⟩ := hrow2
    exact summaryBase_tm_nonneg records hnn b hbm
  have hlen2 : (sortedSummary records).length =
      (cumsumFrom 0 ((sortedSummary records).map (fun r => r.total_monetary))).length := by
    rw [cumsumFrom_length, List.length_map]
  have hmapc : (pareto_summary records).map (fun r => r.cumulative) =
      (cumsumFrom 0 ((sortedSummary records).map (fun r => r.total_monetary))).map
        (fun c => some (c / total_monetary_all records * 100)) := by
    unfold pareto_summary
    simp only [htm]
    rw [List.map_zipWith]
    dsimp only
    rw [zipWith_const_right
      (fun c => if total_monetary_all records = 0 then none
        else some (c / total_monetary_all records * 100)) _ _ hlen2]
    refine List.map_congr_left ?_
    intro c _
    rw [if_neg hgt]
  have hfm : (pareto_summary records).filterMap (fun r => r.cumulative) =
      (cumsumFrom 0 ((sortedSummary records).map (fun r => r.total_monetary))).map
        (fun c => c / total_monetary_all records * 100) := by
    refine filterMap_eq_of_map_eq_map_some ?_
    rw [hmapc, List.map_map]
    rfl
  have hplen : (pareto_summary records).length = (sortedSummary records).length := by
    unfold pareto_summary
    simp only [htm]
    rw [List.length_zipWith, ← hlen2, min_self]
  refine ⟨?_, ?_, ?_⟩
  · rw [hfm, hplen, List.length_map, ← hlen2]
  · rw [hfm]
    refine (List.chain'_map _).mpr ?_
    refine List.Chain'.imp ?_ (cumsumFrom_chain _ htsnn 0)
    intro a b hab
    exact mul_le_mul_of_nonneg_right
      ((div_le_div_iff_of_pos_right hgpos).mpr hab) (by norm_num)
  · rw [hfm, List.getLast?_map, cumsumFrom_getLast _ hts0]
    simp only [Option.map_some']
    rw [zero_add, htm, div_self hgt, one_mul]

attribute [local semireducible] Rat.add Rat.mul Rat.sub Rat.inv in
/-- Witness for C7: the Pareto clauses on a one-record population with
monetary value 10. -/
theorem C7_pareto_amended_witness :
    ((pareto_summary [witRecord]).filterMap (fun r => r.cumulative)).length =
      (pareto_summary [witRecord]).length ∧
    List.Chain' (· ≤ ·) ((pareto_summary [witRecord]).filterMap (fun r => r.cumulative)) ∧
    ((pareto_summary [witRecord]).filterMap (fun r => r.cumulative)).getLast? = some 100 :=
  C7_pareto_amended [witRecord] (by decide) (by decide) (by decide)

attribute [local semireducible] Rat.add Rat.mul Rat.sub Rat.inv in
/-- Counterexample for C1: for a delivered order with one item of price
10 and freight 5, the aggregator's `total_price` — the value renamed to
`monetary` and fed to RFM scoring — is 10 (sum of `price` only), while
the sum of `price + freight_value` over the customer's delivered items
is 15. -/
theorem C1_counterexample :
    (data_orders [witOrder] (df_order_items_ [witItem])).map (fun p => p.total_price) =
      [10] ∧
    ((([witItem] : List ItemRow).filter (fun i => i.order_id ∈
        (([witOrder] : List OrderRow).filter
          (fun o => o.order_status = "delivered" ∧ o.customer_id = 7)).map
          (fun o => o.order_id))).map total_value).sum = 15 ∧
    ((10:ℚ) = 15 → False) := by
  decide

/-- C1 (amended): in a population whose orders table has pairwise
distinct order ids, every aggregated customer's `total_price` (the
`monetary` fed to RFM) equals the sum of `price` — excluding
`freight_value` — over all order items of all that customer's delivered
orders. -/
theorem C1_amended (orders : List OrderRow) (items : List ItemRow)
    (hids : (orders.map (fun o => o.order_id)).Nodup) :
    ∀ p ∈ data_orders orders (df_order_items_ items),
      p.total_price = ((items.filter (fun i => i.order_id ∈
        ((orders.filter (fun o =>
          o.order_status = "delivered" ∧ o.customer_id = p.customer_id)).map
          (fun o => o.order_id)))).map (fun i => i.price)).sum := by
  intro p hp
  unfold data_orders at hp
  simp only [List.mem_map] at hp
  obtain ⟨c, hc, rfl⟩ := hp
  simp only [mkCustomerProfile]
  have hrows : (((mergedRows orders (df_order_items_ items)).filter
      (fun r => r.order.order_status = "delivered")).filter
      (fun r => r.order.customer_id = c)) =
      mergedRows (orders.filter (fun o =>
        o.order_status = "delivered" ∧ o.customer_id = c)) (df_order_items_ items) := by
    rw [List.filter_filter]
    have hpred : (fun r : MergedRow =>
        decide (r.order.customer_id = c) && decide (r.order.order_status = "delivered")) =
        (fun r : MergedRow =>
          (fun o : OrderRow => decide (o.order_status = "delivered" ∧ o.customer_id = c))
            r.order) := by
      funext r
      simp [Bool.and_comm]
    rw [hpred]
    exact filter_mergedRows
      (fun o => decide (o.order_status = "delivered" ∧ o.customer_id = c)) orders
      (df_order_items_ items)
  rw [hrows, mergedRows_item_sum]
  rw [List.map_congr_left (fun o _ => groups_fiber_sum items o.order_id)]
  have hnd : ((orders.filter (fun o =>
      o.order_status = "delivered" ∧ o.customer_id = c)).map (fun o => o.order_id)).Nodup :=
    List.Nodup.sublist (List.Sublist.map _ (List.filter_sublist orders)) hids
  rw [sum_over_orders items _ hnd]

attribute [local semireducible] Rat.add Rat.mul Rat.sub Rat.inv in
/-- Witness for C1 (amended): the equality evaluated on the
one-customer population. -/
theorem C1_amended_witness :
    witProfile.total_price = ((([witItem] : List ItemRow).filter (fun i => i.order_id ∈
      ((([witOrder] : List OrderRow).filter (fun o =>
        o.order_status = "delivered" ∧ o.customer_id = witProfile.customer_id)).map
        (fun o => o.order_id)))).map (fun i => i.price)).sum :=
  C1_amended [witOrder] [witItem] (by decide) witProfile (by decide)

end EcomRfm
